import Mathlib

/-!
Verification development for the merge-request review pipeline of an
automated code-review service (NestJS backend).  The definitions below are a
shallow embedding of the TypeScript sources:

* gitlab.service.ts      — file-context fetching and import extraction
* diff-processor         — chunk extraction from unified diffs
* llm.service.ts         — LLM calls with retry and response parsing
* issue-verifier.service — false-positive filtering of LLM issues
* review-processor.ts    — the per-job orchestrator (scoring, posting, persistence)

External effects (forge HTTP fetches, the LLM transport, JSON.parse) are
modelled as explicit oracle parameters; everything else is translated
directly from the source.  JavaScript regular expressions used by the code
are embedded as equivalent executable character-list scanners.
-/

/-! ## Basic character classes and string helpers (JS semantics) -/

/-- JS word character for the regex class backslash-w: [A-Za-z0-9_]. -/
def isWordChar (c : Char) : Bool :=
  (c.isAlpha && c.val < 128) || c.isDigit || c = '_'

/-- Character class [A-Za-z0-9_$] used by the identifier regexes. -/
def isIdentChar (c : Char) : Bool :=
  isWordChar c || c = '$'

/-- JS whitespace for the regex class backslash-s (ASCII portion). -/
def jsWs (c : Char) : Bool :=
  c = ' ' || c = '\t' || c = '\n' || c = '\r' || c = Char.ofNat 11 || c = Char.ofNat 12

/-- Quote characters accepted by the quoted-identifier regexes: single quote,
double quote, backtick. -/
def isQuoteChar (c : Char) : Bool :=
  c = Char.ofNat 39 || c = '"' || c = Char.ofNat 96

/-- Substring test on character lists, the model of JS String.includes. -/
def inclAux (pat : List Char) : List Char → Bool
  | [] => pat.isEmpty
  | c :: t => pat.isPrefixOf (c :: t) || inclAux pat t

/-- Model of JS s.includes(pat). -/
def strIncludes (s pat : String) : Bool :=
  inclAux pat.toList s.toList

/-- Head of a character list satisfies a predicate (false at end of input). -/
def headIs (p : Char → Bool) (l : List Char) : Bool :=
  (l.head?.map p).getD false

/-- Split a character list on a separator character, keeping empty pieces,
the model of JS s.split(sep) for a one-character separator. -/
def splitOnCh (sep : Char) : List Char → List (List Char)
  | [] => [[]]
  | c :: rest =>
    let r := splitOnCh sep rest
    if c = sep then [] :: r
    else
      match r with
      | h :: t => (c :: h) :: t
      | [] => [[c]]

/-- Model of JS s.split(sep) for a one-character separator, over strings. -/
def strSplitOnCh (sep : Char) (s : String) : List String :=
  (splitOnCh sep s.toList).map String.mk

/-- Fuel-driven splitter on a multi-character separator (JS s.split(sep)).
The fuel is an upper bound on the number of consumed characters; callers pass
the input length plus one, which always suffices. -/
def splitStrFuel (sep : List Char) : Nat → List Char → List Char → List (List Char)
  | 0, l, cur => [cur.reverse ++ l]
  | _ + 1, [], cur => [cur.reverse]
  | n + 1, c :: rest, cur =>
    if !sep.isEmpty && sep.isPrefixOf (c :: rest) then
      cur.reverse :: splitStrFuel sep n ((c :: rest).drop sep.length) []
    else splitStrFuel sep n rest (c :: cur)

/-- Model of JS s.split(sep) for a non-empty string separator. -/
def strSplitOnStr (sep : String) (s : String) : List String :=
  (splitStrFuel sep.toList (s.toList.length + 1) s.toList []).map String.mk

/-- Model of JS String.trim: strip leading and trailing whitespace. -/
def strTrim (s : String) : String :=
  String.mk (((s.toList.dropWhile jsWs).reverse.dropWhile jsWs).reverse)

/-- Model of JS String.toLowerCase (ASCII letters). -/
def strToLower (s : String) : String :=
  String.mk (s.toList.map Char.toLower)

/-- Model of JS String.startsWith. -/
def strStartsWith (s pre : String) : Bool :=
  pre.toList.isPrefixOf s.toList

/-! ## Import extractor (gitlab.service.ts, extractImports)

The per-language regex families are anchored with a caret and leading
backslash-s-star; since the tested line is trimmed first, each alternative is
matched at the start of the trimmed line. -/

/-- Matches kw followed by at least one whitespace character (kw then s-plus),
at the start of the input. -/
def kwThenWs (kw : String) (l : List Char) : Bool :=
  kw.toList.isPrefixOf l && headIs jsWs (l.drop kw.toList.length)

/-- Matches kw, then one-or-more whitespace, then a character satisfying p. -/
def kwWsThen (kw : String) (p : Char → Bool) (l : List Char) : Bool :=
  kw.toList.isPrefixOf l &&
    (let r := l.drop kw.toList.length
     let ws := r.takeWhile jsWs
     !ws.isEmpty && headIs p (r.drop ws.length))

/-- The const-require alternative of the ts/js pattern:
const, whitespace, any characters, an equals sign, optional whitespace,
then the literal require followed by an opening parenthesis. -/
def constRequireMatch (l : List Char) : Bool :=
  kwThenWs "const" l &&
    ((List.range l.length).any fun i =>
      match l.drop i with
      | '=' :: r =>
          "require(".toList.isPrefixOf (r.dropWhile jsWs)
      | _ => false)

/-- Quote class of the from-alternative of the ts/js patterns: single or
double quote only. -/
def isFromQuote (c : Char) : Bool :=
  c = Char.ofNat 39 || c = '"'

/-- TypeScript import pattern (also the default for unknown extensions). -/
def tsPatternTest (t : String) : Bool :=
  let l := t.toList
  kwThenWs "import" l || kwWsThen "export" (· = '{') l ||
    kwWsThen "from" isFromQuote l || constRequireMatch l ||
    kwWsThen "type" (· = '{') l

/-- JavaScript import pattern (ts pattern without the type-brace form). -/
def jsPatternTest (t : String) : Bool :=
  let l := t.toList
  kwThenWs "import" l || kwWsThen "export" (· = '{') l ||
    kwWsThen "from" isFromQuote l || constRequireMatch l

/-- Python pattern: import with whitespace, or from, token, import, whitespace. -/
def pyPatternTest (t : String) : Bool :=
  let l := t.toList
  kwThenWs "import" l ||
    ("from".toList.isPrefixOf l &&
      (let r := l.drop 4
       let ws1 := r.takeWhile jsWs
       !ws1.isEmpty &&
         (let r2 := (r.drop ws1.length)
          let tok := r2.takeWhile (fun c => !jsWs c)
          !tok.isEmpty &&
            (let r3 := r2.drop tok.length
             let ws2 := r3.takeWhile jsWs
             !ws2.isEmpty && kwThenWs "import" (r3.drop ws2.length)))))

/-- Java pattern: import or package, each followed by whitespace. -/
def javaPatternTest (t : String) : Bool :=
  kwThenWs "import" t.toList || kwThenWs "package" t.toList

/-- Go pattern: import, whitespace, then an opening parenthesis or quote. -/
def goPatternTest (t : String) : Bool :=
  kwWsThen "import" (fun c => c = '(' || c = '"' || c = Char.ofNat 39) t.toList

/-- Rust pattern: use followed by whitespace. -/
def rsPatternTest (t : String) : Bool :=
  kwThenWs "use" t.toList

/-- PHP pattern: use with whitespace, or the literals require / include. -/
def phpPatternTest (t : String) : Bool :=
  kwThenWs "use" t.toList || "require".toList.isPrefixOf t.toList ||
    "include".toList.isPrefixOf t.toList

/-- Extension of a file path: split on dots, take the last piece, lowercase
(filePath.split, pop, toLowerCase in the source). -/
def extensionOf (filePath : String) : String :=
  strToLower (((strSplitOnCh '.' filePath).getLast?).getD "")

/-- Language-pattern lookup table with the ts pattern as the default. -/
def selectPattern (ext : String) : String → Bool :=
  match ext with
  | "ts" => tsPatternTest
  | "js" => jsPatternTest
  | "py" => pyPatternTest
  | "java" => javaPatternTest
  | "go" => goPatternTest
  | "rs" => rsPatternTest
  | "php" => phpPatternTest
  | _ => tsPatternTest

/-- Blank lines and comment starters skipped by the extractor loop. -/
def isCommentOrBlank (t : String) : Bool :=
  t.toList.isEmpty || strStartsWith t "//" || strStartsWith t "/*" ||
    strStartsWith t "*" || strStartsWith t "#"

/-- The scanning loop of extractImports: the counter is the number of
consecutive non-blank non-comment non-matching lines seen so far; after the
third such line the loop breaks. -/
def extractImportsLoop (pat : String → Bool) : List String → Nat → List String
  | [], _ => []
  | l :: rest, k =>
    let t := strTrim l
    if isCommentOrBlank t then extractImportsLoop pat rest k
    else if pat t then l :: extractImportsLoop pat rest 0
    else if k + 1 ≥ 3 then []
    else extractImportsLoop pat rest (k + 1)

/-- Model of extractImports (gitlab.service.ts): scan the first 50 lines with
the per-language pattern, skipping blanks and comments, stopping after three
consecutive non-matching lines; matched lines keep their original text. -/
def extractImports (lines : List String) (filePath : String) : List String :=
  extractImportsLoop (selectPattern (extensionOf filePath)) (lines.take 50) 0

/-! ## File context fetch (gitlab.service.ts, getFileContentWithContext) -/

/-- FileContentWithContext record returned by the forge client wrapper. -/
structure FileContentWithContext where
  lines : List String
  startLineNumber : Nat
  targetLineNumber : Nat
  endLineNumber : Nat
  totalLines : Nat
  imports : List String
deriving Repr, DecidableEq

/-- Model of getFileContentWithContext.  The network fetch is an oracle: on
success it yields the raw decoded file content, which the code splits on
newlines; on failure the catch block returns the zeroed record.  JS
Math.max(0, n - c - 1) is Nat subtraction; Array.slice(start, end) is
drop-then-take. -/
def getFileContentWithContext (fetch : Except Unit String) (filePath : String)
    (lineNumber contextLines : Nat) : FileContentWithContext :=
  match fetch with
  | .error _ =>
      { lines := [], startLineNumber := 0, targetLineNumber := lineNumber,
        endLineNumber := 0, totalLines := 0, imports := [] }
  | .ok content =>
      let lines := strSplitOnCh '\n' content
      let imports := extractImports lines filePath
      let startLine := lineNumber - contextLines - 1
      let endLine := min lines.length (lineNumber + contextLines)
      let contextContent := (lines.drop startLine).take (endLine - startLine)
      { lines := contextContent, startLineNumber := startLine + 1,
        targetLineNumber := lineNumber, endLineNumber := endLine,
        totalLines := lines.length, imports := imports }

/-- The invariant claimed for FileContentWithContext values. -/
def fileContextInvariant (r : FileContentWithContext) : Prop :=
  r.startLineNumber ≤ r.targetLineNumber ∧ r.targetLineNumber ≤ r.endLineNumber ∧
    (r.lines.length : Int) = (r.endLineNumber : Int) - (r.startLineNumber : Int) + 1

instance (r : FileContentWithContext) : Decidable (fileContextInvariant r) := by
  unfold fileContextInvariant; infer_instance

/-! ## Claims C7 and C8 -/

/-- C7 counterexample: the claim asserts the invariant for every file
content, target line number and context width, including the fetch-failure
return path.  Three concrete refutations: the failure path returns
startLineNumber = 0, endLineNumber = 0 and empty lines, so for target line 1
both the ordering and the length equation fail; on the successful-fetch path
a target of 0 (reachable, since the verifier passes issue.line, which the
parser coerces to 0 when absent) gives startLineNumber = 1 > 0 = target; and
a target beyond the file's last line (here 100 in a two-line file) breaks
target ≤ endLineNumber and the length equation. -/
theorem fileContext_invariant_counterexample :
    ¬ fileContextInvariant (getFileContentWithContext (.error ()) "f.ts" 1 10) ∧
      ¬ fileContextInvariant (getFileContentWithContext (.ok "a\nb") "f.ts" 0 10) ∧
      ¬ fileContextInvariant (getFileContentWithContext (.ok "a\nb") "f.ts" 100 10) := by
  refine ⟨?_, ?_, ?_⟩ <;> decide

/-- C7 (amended): every FileContentWithContext built on the successful-fetch
path whose target line lies within the file (1 ≤ target ≤ number of lines)
satisfies startLineNumber ≤ targetLineNumber ≤ endLineNumber and
lines.length = endLineNumber − startLineNumber + 1. -/
theorem fileContext_invariant_on_success (content filePath : String)
    (lineNumber contextLines : Nat) (h1 : 1 ≤ lineNumber)
    (h2 : lineNumber ≤ (strSplitOnCh '\n' content).length) :
    fileContextInvariant
      (getFileContentWithContext (.ok content) filePath lineNumber contextLines) := by
  unfold getFileContentWithContext fileContextInvariant
  simp only [List.length_take, List.length_drop]
  refine ⟨by omega, by omega, ?_⟩
  push_cast
  omega

/-- C7 witness: the success-path invariant at a concrete five-line file. -/
theorem fileContext_invariant_on_success_witness :
    1 ≤ 3 ∧ 3 ≤ (strSplitOnCh '\n' "a\nb\nc\nd\ne").length ∧
      fileContextInvariant (getFileContentWithContext (.ok "a\nb\nc\nd\ne") "f.ts" 3 1) :=
  ⟨by decide, by decide,
    fileContext_invariant_on_success "a\nb\nc\nd\ne" "f.ts" 3 1 (by decide) (by decide)⟩

/-- C8: the import extractor only inspects the first 50 lines, so repeating
the whole line list changes nothing once the list already has 50 lines:
extractImports (L ++ L) = extractImports L whenever 50 ≤ length L. -/
theorem extractImports_prefix_repetition (L : List String) (filePath : String)
    (h : 50 ≤ L.length) :
    extractImports (L ++ L) filePath = extractImports L filePath := by
  unfold extractImports
  rw [List.take_append_of_le_length h]

/-- C8 witness: prefix-repetition idempotence at a concrete 50-line file. -/
theorem extractImports_prefix_repetition_witness :
    50 ≤ (List.replicate 50 "x = 1").length ∧
      extractImports (List.replicate 50 "x = 1" ++ List.replicate 50 "x = 1") "a.ts" =
        extractImports (List.replicate 50 "x = 1") "a.ts" :=
  ⟨by simp, extractImports_prefix_repetition (List.replicate 50 "x = 1") "a.ts" (by simp)⟩

/-! ## Diff processor (diff-processor.ts)

The parse-diff library output is modelled as already-parsed data: a file
carries old/new paths, binary/deleted flags and a list of hunks, each hunk a
list of changes tagged add / del / normal.  For an added line, ln is the
new-file line number assigned by the parser. -/

/-- JS a-or-b-or-default over possibly-absent strings: the empty string is
falsy, so it also falls through. -/
def jsStrOr (o : Option String) (d : String) : String :=
  match o with
  | some s => if s = "" then d else s
  | none => d

/-- Issue severity, per the CodeReviewResult interface. -/
inductive Severity
  | critical
  | high
  | medium
  | low
deriving Repr, DecidableEq

/-- Issue category, per the CodeReviewResult interface. -/
inductive IssueType
  | security
  | performance
  | logic
  | style
deriving Repr, DecidableEq

/-- Issue of a single-chunk review result. -/
structure Issue where
  line : Nat
  severity : Severity
  type : IssueType
  message : String
  suggestion : String
deriving Repr, DecidableEq

/-- Issue of a batched review result, which additionally carries the file. -/
structure IssueWithFile where
  file : String
  line : Nat
  severity : Severity
  type : IssueType
  message : String
  suggestion : String
deriving Repr, DecidableEq

/-- Result of reviewChangedLines. -/
structure CodeReviewResult where
  summary : String
  issues : List Issue
deriving Repr, DecidableEq

/-- Result of reviewMultipleChunks. -/
structure BatchedCodeReviewResult where
  summary : String
  issues : List IssueWithFile
deriving Repr, DecidableEq

/-! ## LLM client (llm.service.ts): response parsing and retry

The HTTP transport and JSON.parse are external; they enter as oracles.  The
transport oracle maps the attempt number to a network outcome: an error, a
response with missing content (content null or empty, which the code turns
into a thrown Empty-response error), or the content string. -/

/-- One global-replace pass of the fence-stripping regex: each occurrence of
the token, together with one optional following newline, is deleted; the scan
is left to right.  The fuel is the input length plus one. -/
def stripTokenNl (tok : List Char) : Nat → List Char → List Char
  | 0, l => l
  | _ + 1, [] => []
  | n + 1, c :: rest =>
    if tok.isPrefixOf (c :: rest) then
      match (c :: rest).drop tok.length with
      | '\n' :: r2 => stripTokenNl tok n r2
      | r2 => stripTokenNl tok n r2
    else c :: stripTokenNl tok n rest

/-- Model of the response cleaning in parseReviewResponse: strip json fences,
strip bare fences, trim. -/
def cleanLlmResponse (s : String) : String :=
  let l1 := stripTokenNl "```json".toList (s.toList.length + 1) s.toList
  let l2 := stripTokenNl "```".toList (l1.length + 1) l1
  strTrim (String.mk l2)

/-- Raw issue as delivered by JSON.parse, every field possibly absent. -/
structure RawIssue where
  line : Option Nat
  severity : Option Severity
  type : Option IssueType
  message : Option String
  suggestion : Option String
deriving Repr, DecidableEq

/-- Raw batched issue: a raw issue plus a possibly-absent file field. -/
structure RawBatchedIssue where
  file : Option String
  line : Option Nat
  severity : Option Severity
  type : Option IssueType
  message : Option String
  suggestion : Option String
deriving Repr, DecidableEq

/-- Parsed JSON document shape for a single-chunk response: summary must be a
non-empty string and issues an array, otherwise the code throws and the catch
block returns the synthetic failure review. -/
structure ParsedDoc where
  summary : Option String
  issues : Option (List RawIssue)
deriving Repr, DecidableEq

/-- Parsed JSON document shape for a batched response. -/
structure ParsedBatchedDoc where
  summary : Option String
  issues : Option (List RawBatchedIssue)
deriving Repr, DecidableEq

/-- Field coercion of parseReviewResponse: missing line becomes 0, missing
severity low, missing type style, missing or empty message and suggestion get
the fixed defaults (JS or-defaults treat the empty string as absent). -/
def coerceIssue (r : RawIssue) : Issue :=
  { line := r.line.getD 0, severity := r.severity.getD Severity.low,
    type := r.type.getD IssueType.style,
    message := jsStrOr r.message "No description",
    suggestion := jsStrOr r.suggestion "No suggestion" }

/-- Field coercion of parseBatchedReviewResponse. -/
def coerceBatchedIssue (r : RawBatchedIssue) : IssueWithFile :=
  { file := jsStrOr r.file "unknown", line := r.line.getD 0,
    severity := r.severity.getD Severity.low, type := r.type.getD IssueType.style,
    message := jsStrOr r.message "No description",
    suggestion := jsStrOr r.suggestion "No suggestion" }

/-- Model of parseReviewResponse: clean the response, parse it (oracle),
validate summary and issues, coerce fields; any failure yields the synthetic
failure review and never raises. -/
def parseReviewResponse (jsonParse : String → Option ParsedDoc) (response : String) :
    CodeReviewResult :=
  match jsonParse (cleanLlmResponse response) with
  | none => { summary := "Failed to parse review results", issues := [] }
  | some doc =>
    match doc.summary, doc.issues with
    | some s, some raw =>
      if s = "" then { summary := "Failed to parse review results", issues := [] }
      else { summary := s, issues := raw.map coerceIssue }
    | _, _ => { summary := "Failed to parse review results", issues := [] }

/-- Model of parseBatchedReviewResponse. -/
def parseBatchedReviewResponse (jsonParse : String → Option ParsedBatchedDoc)
    (response : String) : BatchedCodeReviewResult :=
  match jsonParse (cleanLlmResponse response) with
  | none => { summary := "Failed to parse batched review results", issues := [] }
  | some doc =>
    match doc.summary, doc.issues with
    | some s, some raw =>
      if s = "" then { summary := "Failed to parse batched review results", issues := [] }
      else { summary := s, issues := raw.map coerceBatchedIssue }
    | _, _ => { summary := "Failed to parse batched review results", issues := [] }

/-- One attempt body inside pRetry: issue the transport call; missing content
becomes the thrown Empty-response error. -/
def attemptOp (transport : Nat → Except String (Option String)) (n : Nat) :
    Except String String :=
  match transport n with
  | .error e => .error e
  | .ok none => .error "Empty response from Azure OpenAI"
  | .ok (some c) => .ok c

/-- Model of pRetry: run the attempt, return on success, otherwise retry
while retries remain.  Returns the final outcome and the number of the last
attempt made (so the total number of attempts). -/
def pRetryRun (op : Nat → Except String String) : Nat → Nat → Except String String × Nat
  | attempt, retriesLeft =>
    match op attempt, retriesLeft with
    | .ok c, _ => (.ok c, attempt)
    | .error e, 0 => (.error e, attempt)
    | .error _, n + 1 => pRetryRun op (attempt + 1) n

/-- Model of reviewChangedLines (enabled path): pRetry with retries = 3 around
call-plus-empty-check, then a single parse of the successful content outside
the retry; exhaustion yields the error review.  Returns the review and the
number of attempts made. -/
def reviewChangedLines (transport : Nat → Except String (Option String))
    (jsonParse : String → Option ParsedDoc) : CodeReviewResult × Nat :=
  match pRetryRun (attemptOp transport) 1 3 with
  | (.ok c, n) => (parseReviewResponse jsonParse c, n)
  | (.error _, n) => ({ summary := "Error during review", issues := [] }, n)

/-- Model of reviewMultipleChunks (enabled path), identical retry structure. -/
def reviewMultipleChunks (transport : Nat → Except String (Option String))
    (jsonParse : String → Option ParsedBatchedDoc) : BatchedCodeReviewResult × Nat :=
  match pRetryRun (attemptOp transport) 1 3 with
  | (.ok c, n) => (parseBatchedReviewResponse jsonParse c, n)
  | (.error _, n) => ({ summary := "Error during batched review", issues := [] }, n)

/-! ## Claim C3: LLM retry behavior -/

/-- Full characterization of the retry loop with retries = 3: between 1 and 4
attempts are made; every attempt before the last failed; the outcome is the
last attempt's result, and an error outcome occurs only when all 4 attempts
failed. -/
theorem pRetryRun_spec (op : Nat → Except String String) :
    (pRetryRun op 1 3).2 ≤ 4 ∧ 1 ≤ (pRetryRun op 1 3).2 ∧
      (∀ k, 1 ≤ k → k < (pRetryRun op 1 3).2 → ∃ e, op k = .error e) ∧
      (∀ c, op (pRetryRun op 1 3).2 = .ok c → (pRetryRun op 1 3).1 = .ok c) ∧
      (∀ e, op (pRetryRun op 1 3).2 = .error e →
        (pRetryRun op 1 3).2 = 4 ∧ (pRetryRun op 1 3).1 = .error e) := by
  rcases h1 : op 1 with e1 | c1
  · rcases h2 : op 2 with e2 | c2
    · rcases h3 : op 3 with e3 | c3
      · rcases h4 : op 4 with e4 | c4
        · have hr : pRetryRun op 1 3 = (.error e4, 4) := by
            unfold pRetryRun; rw [h1]
            unfold pRetryRun; rw [h2]
            unfold pRetryRun; rw [h3]
            unfold pRetryRun; rw [h4]
          rw [hr]
          refine ⟨by norm_num, by norm_num, ?_, ?_, ?_⟩
          · intro k hk1 hk2
            interval_cases k
            · exact ⟨e1, h1⟩
            · exact ⟨e2, h2⟩
            · exact ⟨e3, h3⟩
          · intro c hc
            rw [h4] at hc
            exact Except.noConfusion hc
          · intro e he
            rw [h4] at he
            cases he
            exact ⟨rfl, rfl⟩
        · have hr : pRetryRun op 1 3 = (.ok c4, 4) := by
            unfold pRetryRun; rw [h1]
            unfold pRetryRun; rw [h2]
            unfold pRetryRun; rw [h3]
            unfold pRetryRun; rw [h4]
          rw [hr]
          refine ⟨by norm_num, by norm_num, ?_, ?_, ?_⟩
          · intro k hk1 hk2
            interval_cases k
            · exact ⟨e1, h1⟩
            · exact ⟨e2, h2⟩
            · exact ⟨e3, h3⟩
          · intro c hc
            rw [h4] at hc
            cases hc
            rfl
          · intro e he
            rw [h4] at he
            exact Except.noConfusion he
      · have hr : pRetryRun op 1 3 = (.ok c3, 3) := by
          unfold pRetryRun; rw [h1]
          unfold pRetryRun; rw [h2]
          unfold pRetryRun; rw [h3]
        rw [hr]
        refine ⟨by norm_num, by norm_num, ?_, ?_, ?_⟩
        · intro k hk1 hk2
          interval_cases k
          · exact ⟨e1, h1⟩
          · exact ⟨e2, h2⟩
        · intro c hc
          rw [h3] at hc
          cases hc
          rfl
        · intro e he
          rw [h3] at he
          exact Except.noConfusion he
    · have hr : pRetryRun op 1 3 = (.ok c2, 2) := by
        unfold pRetryRun; rw [h1]
        unfold pRetryRun; rw [h2]
      rw [hr]
      refine ⟨by norm_num, by norm_num, ?_, ?_, ?_⟩
      · intro k hk1 hk2
        interval_cases k
        exact ⟨e1, h1⟩
      · intro c hc
        rw [h2] at hc
        cases hc
        rfl
      · intro e he
        rw [h2] at he
        exact Except.noConfusion he
  · have hr : pRetryRun op 1 3 = (.ok c1, 1) := by
      unfold pRetryRun; rw [h1]
    rw [hr]
    refine ⟨by norm_num, by norm_num, ?_, ?_, ?_⟩
    · intro k hk1 hk2
      omega
    · intro c hc
      rw [h1] at hc
      cases hc
      rfl
    · intro e he
      rw [h1] at he
      exact Except.noConfusion he

/-- Transport that always fails with a network error. -/
def c3FailTransport : Nat → Except String (Option String) :=
  fun _ => .error "ECONNRESET"

/-- Transport that immediately returns an unparseable body. -/
def c3BadJsonTransport : Nat → Except String (Option String) :=
  fun _ => .ok (some "not json")

/-- JSON.parse oracle that rejects every input. -/
def c3NoParse : String → Option ParsedDoc :=
  fun _ => none

/-- C3 counterexample: the claim says at most 3 attempts are made and that a
response failing JSON parsing triggers another attempt.  In the code pRetry
is configured with retries = 3, so a persistent network error produces 4
attempts; and the JSON parse sits outside the retry wrapper, so an
unparseable body ends the call after a single attempt with the synthetic
parse-failure review instead of being retried. -/
theorem reviewChangedLines_retry_counterexample :
    (reviewChangedLines c3FailTransport c3NoParse).2 = 4 ∧
      (reviewChangedLines c3BadJsonTransport c3NoParse).2 = 1 ∧
      (reviewChangedLines c3BadJsonTransport c3NoParse).1 =
        { summary := "Failed to parse review results", issues := [] } := by
  refine ⟨?_, ?_, ?_⟩ <;> decide

/-- C3 (amended): for both reviewChangedLines and reviewMultipleChunks, the
LLM interaction is attempted at most 4 times per call (pRetry retries = 3), a
retry is triggered only by a network error or a missing/empty response body,
and JSON parsing happens once after the retry loop: the successful attempt's
content is parsed outside the retry, so a response with invalid JSON yields
the synthetic parse-failure review without another attempt, and exhaustion of
all 4 attempts yields the error review. -/
theorem llm_retry_spec (t tb : Nat → Except String (Option String))
    (p : String → Option ParsedDoc) (pb : String → Option ParsedBatchedDoc) (k : Nat) :
    (reviewChangedLines t p).2 ≤ 4 ∧
      (1 ≤ k → k < (reviewChangedLines t p).2 → ∃ e, attemptOp t k = .error e) ∧
      (∀ c, attemptOp t (reviewChangedLines t p).2 = .ok c →
        (reviewChangedLines t p).1 = parseReviewResponse p c) ∧
      (∀ e, attemptOp t (reviewChangedLines t p).2 = .error e →
        (reviewChangedLines t p).2 = 4 ∧
          (reviewChangedLines t p).1 = { summary := "Error during review", issues := [] }) ∧
      (reviewMultipleChunks tb pb).2 ≤ 4 ∧
      (1 ≤ k → k < (reviewMultipleChunks tb pb).2 → ∃ e, attemptOp tb k = .error e) ∧
      (∀ c, attemptOp tb (reviewMultipleChunks tb pb).2 = .ok c →
        (reviewMultipleChunks tb pb).1 = parseBatchedReviewResponse pb c) ∧
      (∀ e, attemptOp tb (reviewMultipleChunks tb pb).2 = .error e →
        (reviewMultipleChunks tb pb).2 = 4 ∧
          (reviewMultipleChunks tb pb).1 =
            { summary := "Error during batched review", issues := [] }) := by
  obtain ⟨hs1, _, hs3, hs4, hs5⟩ := pRetryRun_spec (attemptOp t)
  obtain ⟨hb1, _, hb3, hb4, hb5⟩ := pRetryRun_spec (attemptOp tb)
  have hrev : reviewChangedLines t p =
      (match pRetryRun (attemptOp t) 1 3 with
       | (.ok c, n) => (parseReviewResponse p c, n)
       | (.error _, n) => ({ summary := "Error during review", issues := [] }, n)) := rfl
  have hrevb : reviewMultipleChunks tb pb =
      (match pRetryRun (attemptOp tb) 1 3 with
       | (.ok c, n) => (parseBatchedReviewResponse pb c, n)
       | (.error _, n) => ({ summary := "Error during batched review", issues := [] }, n)) := rfl
  rcases hpr : pRetryRun (attemptOp t) 1 3 with ⟨res, n⟩
  rcases hprb : pRetryRun (attemptOp tb) 1 3 with ⟨resb, nb⟩
  rw [hpr] at hs1 hs3 hs4 hs5
  rw [hprb] at hb1 hb3 hb4 hb5
  rw [hpr] at hrev
  rw [hprb] at hrevb
  rcases res with e | c <;> rcases resb with eb | cb <;>
    simp only at hrev hrevb <;> rw [hrev, hrevb] <;>
    refine ⟨hs1, fun a b => hs3 k a b, ?_, ?_, hb1, fun a b => hb3 k a b, ?_, ?_⟩
  · intro c hc
    exact absurd (hs4 c hc) (by simp)
  · intro e' he'
    exact ⟨(hs5 e' he').1, rfl⟩
  · intro c hc
    exact absurd (hb4 c hc) (by simp)
  · intro e' he'
    exact ⟨(hb5 e' he').1, rfl⟩
  · intro c hc
    exact absurd (hs4 c hc) (by simp)
  · intro e' he'
    exact ⟨(hs5 e' he').1, rfl⟩
  · intro c hc
    cases hb4 c hc
    exact rfl
  · intro e' he'
    exact absurd ((hb5 e' he').2) (by simp)
  · intro c hc
    cases hs4 c hc
    exact rfl
  · intro e' he'
    exact absurd ((hs5 e' he').2) (by simp)
  · intro c hc
    exact absurd (hb4 c hc) (by simp)
  · intro e' he'
    exact ⟨(hb5 e' he').1, rfl⟩
  · intro c hc
    cases hs4 c hc
    exact rfl
  · intro e' he'
    exact absurd ((hs5 e' he').2) (by simp)
  · intro c hc
    cases hb4 c hc
    exact rfl
  · intro e' he'
    exact absurd ((hb5 e' he').2) (by simp)

/-- C3 witness: the retry characterization applied at the always-failing
transport, where the run makes 4 attempts and attempt 2 indeed failed. -/
theorem llm_retry_spec_witness :
    1 ≤ 2 ∧ 2 < (reviewChangedLines c3FailTransport c3NoParse).2 ∧
      ∃ e, attemptOp c3FailTransport 2 = .error e :=
  ⟨by decide, by decide,
    (llm_retry_spec c3FailTransport c3FailTransport c3NoParse (fun _ => none) 2).2.1
      (by decide) (by decide)⟩

/-! ## Issue verifier (issue-verifier.service.ts)

The identifier-extraction and matching regexes are embedded as executable
scanners with JS leftmost-match and word-boundary semantics. -/

/-- Scanner for the quoted-identifier regex: a quote, then a non-empty run of
identifier characters, then a quote; returns the first such run. -/
def quotedScan : List Char → Option String
  | [] => none
  | c :: rest =>
    if isQuoteChar c then
      let run := rest.takeWhile isIdentChar
      if !run.isEmpty && headIs isQuoteChar (rest.drop run.length) then
        some (String.mk run)
      else quotedScan rest
    else quotedScan rest

/-- Regex word-boundary after a token: the token's last character and the
following character (end of input counts as non-word) differ in wordness.
Applied to the reversed token run and the characters after it, it returns the
longest prefix of the run (at least one character) with a valid boundary. -/
def shrinkToBoundary : List Char → List Char → Option (List Char)
  | [], _ => none
  | lastc :: revRest, after =>
    if isWordChar lastc != headIs isWordChar after then
      some ((lastc :: revRest).reverse)
    else shrinkToBoundary revRest (lastc :: after)

/-- Match a token at the current position: a first character satisfying
firstp, a greedy run of identifier characters, backtracked until the trailing
word boundary holds. -/
def tryTokenAt (firstp : Char → Bool) (l : List Char) : Option String :=
  match l with
  | [] => none
  | c :: rest =>
    if firstp c then
      let runTail := rest.takeWhile isIdentChar
      let after := rest.drop runTail.length
      match shrinkToBoundary (c :: runTail).reverse after with
      | some tok => some (String.mk tok)
      | none => none
    else none

/-- Attempt of the capitalized-token regex at one position: an optional
literal import plus whitespace, then a capitalized identifier token. -/
def tryImportThenCap (l : List Char) : Option String :=
  if "import".toList.isPrefixOf l then
    let r := l.drop 6
    let ws := r.takeWhile jsWs
    if !ws.isEmpty then
      match tryTokenAt Char.isUpper (r.drop ws.length) with
      | some tok => some tok
      | none => tryTokenAt Char.isUpper l
    else tryTokenAt Char.isUpper l
  else tryTokenAt Char.isUpper l

/-- Leftmost-match driver for token regexes whose match starts with a word
character: try each position whose preceding character is not a word
character. -/
def regexScan (attempt : List Char → Option String) : Option Char → List Char → Option String
  | _, [] => none
  | prev, c :: rest =>
    if !((prev.map isWordChar).getD false) then
      match attempt (c :: rest) with
      | some tok => some tok
      | none => regexScan attempt (some c) rest
    else regexScan attempt (some c) rest

/-- Model of extractImportName: first a quoted identifier, then the first
capitalized token (optionally preceded by the literal import). -/
def extractImportName (message : String) : Option String :=
  match quotedScan message.toList with
  | some tok => some tok
  | none => regexScan tryImportThenCap none message.toList

/-- Model of extractIdentifier: first a quoted identifier, then the first
lower-camel token. -/
def extractIdentifier (message : String) : Option String :=
  match quotedScan message.toList with
  | some tok => some tok
  | none => regexScan (tryTokenAt Char.isLower) none message.toList

/-- Scanner for the destructured-import regex: the first brace group with a
non-empty body, returning the raw body. -/
def destructuredGroup : List Char → Option (List Char)
  | [] => none
  | c :: rest =>
    if c = '{' then
      let run := rest.takeWhile (· ≠ '}')
      if !run.isEmpty && headIs (· = '}') (rest.drop run.length) then some run
      else destructuredGroup rest
    else destructuredGroup rest

/-- Model of matchesImport: a direct substring hit, or a destructured list
member whose pre-as token equals the name. -/
def matchesImport (importStatement importName : String) : Bool :=
  if strIncludes importStatement importName then true
  else
    match destructuredGroup importStatement.toList with
    | some inner =>
      ((splitOnCh ',' inner).map (fun piece => strTrim (String.mk piece))).any
        fun imp => strTrim ((strSplitOnStr " as " imp).headD imp) = importName
    | none => false

/-- Trailing word-boundary test for a literal identifier followed by the
given characters. -/
def idBoundaryAfter (idc after : List Char) : Bool :=
  match idc.getLast? with
  | none => false
  | some lastc => isWordChar lastc != headIs isWordChar after

/-- Match, at the current position, one of the keywords, then one-or-more
whitespace, then the literal identifier with a trailing word boundary. -/
def kwIdAt (kws : List String) (idc : List Char) (l : List Char) : Bool :=
  kws.any fun kw =>
    kw.toList.isPrefixOf l &&
      (let r := l.drop kw.toList.length
       let m := (r.takeWhile jsWs).length
       (List.range m).any fun j =>
         let r2 := r.drop (j + 1)
         idc.isPrefixOf r2 && idBoundaryAfter idc (r2.drop idc.length))

/-- Match, at the current position, the identifier, optional whitespace, an
equals sign, optional whitespace and an opening parenthesis. -/
def arrowAt (idc : List Char) (l : List Char) : Bool :=
  idc.isPrefixOf l &&
    (match (l.drop idc.length).dropWhile jsWs with
     | '=' :: r2 =>
       match r2.dropWhile jsWs with
       | '(' :: _ => true
       | _ => false
     | _ => false)

/-- Existential leftmost driver for the boolean definition patterns: the
match may start at any position whose preceding character's wordness differs
from the match's first-character wordness. -/
def scanBool (attempt : List Char → Bool) (firstWord : Bool) : Option Char → List Char → Bool
  | _, [] => false
  | prev, c :: rest =>
    ((((prev.map isWordChar).getD false) != firstWord) && attempt (c :: rest)) ||
      scanBool attempt firstWord (some c) rest

/-- Model of matchesDefinition: variable declaration, function declaration,
arrow-function assignment, or class/interface/type/enum declaration of the
identifier. -/
def matchesDefinition (line identifier : String) : Bool :=
  let idc := identifier.toList
  let lc := line.toList
  scanBool (kwIdAt ["const", "let", "var"] idc) true none lc ||
    scanBool (kwIdAt ["function"] idc) true none lc ||
    scanBool (arrowAt idc) (headIs isWordChar idc) none lc ||
    scanBool (kwIdAt ["class", "interface", "type", "enum"] idc) true none lc

/-- Verifier confidence levels. -/
inductive Confidence
  | high
  | medium
  | low
deriving Repr, DecidableEq

/-- Verifier outcome. -/
structure VerificationResult where
  isValid : Bool
  confidence : Confidence
  reason : String
deriving Repr, DecidableEq

/-- Verification context.  The projectId and sha fields of the source are
only forwarded to the forge fetches, which are oracles here; the file path
is kept because the extended-context fetch of the definition path feeds it
to getFileContentWithContext (whose import extraction is language-aware). -/
structure VerificationContext where
  filePath : String
  fileContext : Option FileContentWithContext
deriving Repr, DecidableEq

/-- Message routing: import-related issues. -/
def isImportIssue (message : String) : Bool :=
  let lm := strToLower message
  strIncludes lm "import" || strIncludes lm "not imported" ||
    strIncludes lm "missing import" || strIncludes lm "cannot find"

/-- Message routing: definition-related issues. -/
def isDefinitionIssue (message : String) : Bool :=
  let lm := strToLower message
  strIncludes lm "not defined" || strIncludes lm "undefined" ||
    strIncludes lm "not declared" || strIncludes lm "cannot find name"

/-- Model of verifyDuplicateImportClaim: count matches of the import name in
the context imports; at most one occurrence refutes the duplicate claim. -/
def verifyDuplicateImportClaim (importName : String) (context : VerificationContext) :
    VerificationResult :=
  match context.fileContext with
  | none =>
    { isValid := true, confidence := Confidence.low,
      reason := "No imports context available to verify duplicate claim" }
  | some fc =>
    if fc.imports.isEmpty then
      { isValid := true, confidence := Confidence.low,
        reason := "No imports context available to verify duplicate claim" }
    else
      let count := (fc.imports.filter fun imp => matchesImport imp importName).length
      if count ≤ 1 then
        { isValid := false, confidence := Confidence.high,
          reason := "Import \"" ++ importName ++ "\" appears " ++ toString count ++
            " time(s), not a duplicate (need 2+ for duplicate)" }
      else
        { isValid := true, confidence := Confidence.high,
          reason := "Import \"" ++ importName ++ "\" genuinely appears " ++
            toString count ++ " times" }

/-- Model of verifyImportIssue.  The full-file fetch of step 2 is the oracle;
the boolean records whether that fetch was attempted.  A failed fetch
degrades to valid with low confidence. -/
def verifyImportIssue (fetchFile : Except Unit String) (issue : Issue)
    (context : VerificationContext) : VerificationResult × Bool :=
  match extractImportName issue.message with
  | none =>
    ({ isValid := true, confidence := Confidence.low,
       reason := "Could not parse import name from issue message" }, false)
  | some importName =>
    if strIncludes (strToLower issue.message) "duplicate" then
      (verifyDuplicateImportClaim importName context, false)
    else
      let ctxImports := (context.fileContext.map FileContentWithContext.imports).getD []
      if !ctxImports.isEmpty && ctxImports.any (fun imp => matchesImport imp importName) then
        ({ isValid := false, confidence := Confidence.high,
           reason := "Import \"" ++ importName ++ "\" is already present in file imports" },
          false)
      else
        match fetchFile with
        | .ok fullFile =>
          if matchesImport fullFile importName then
            ({ isValid := false, confidence := Confidence.high,
               reason := "Import \"" ++ importName ++
                 "\" exists in full file but was not in context" }, true)
          else
            ({ isValid := true, confidence := Confidence.high,
               reason := "Import \"" ++ importName ++ "\" is not present in file" }, true)
        | .error _ =>
          ({ isValid := true, confidence := Confidence.low,
             reason := "Could not fetch full file for verification" }, true)

/-- Model of verifyDefinitionIssue.  Step 2 calls getFileContentWithContext
for the extended plus-minus-50-line context; fetchDef is the raw
repository-file fetch underlying that call.  getFileContentWithContext
catches fetch failures internally and returns the zeroed record without
throwing, so the try/catch the source wraps around this step (which would
degrade to confidence low) is unreachable and is not modelled: a failed
fetch flows through the empty record into the not-defined branch.  The
boolean records whether the fetch step was reached. -/
def verifyDefinitionIssue (fetchDef : Except Unit String) (issue : Issue)
    (context : VerificationContext) : VerificationResult × Bool :=
  match extractIdentifier issue.message with
  | none =>
    ({ isValid := true, confidence := Confidence.low,
       reason := "Could not parse identifier from issue message" }, false)
  | some identifier =>
    let ctxLines := (context.fileContext.map FileContentWithContext.lines).getD []
    if !ctxLines.isEmpty && ctxLines.any (fun l => matchesDefinition l identifier) then
      ({ isValid := false, confidence := Confidence.high,
         reason := "\"" ++ identifier ++ "\" is defined in the provided context" }, false)
    else
      let ext := getFileContentWithContext fetchDef context.filePath issue.line 50
      if ext.lines.any (fun l => matchesDefinition l identifier) then
        ({ isValid := false, confidence := Confidence.high,
           reason := "\"" ++ identifier ++ "\" is defined within ±50 lines of the issue" },
          true)
      else if ext.imports.any (fun imp => strIncludes imp identifier) then
        ({ isValid := false, confidence := Confidence.high,
           reason := "\"" ++ identifier ++ "\" is imported at the top of the file" }, true)
      else
        ({ isValid := true, confidence := Confidence.high,
           reason := "\"" ++ identifier ++ "\" is not defined within ±50 lines or imports" },
          true)

/-- Model of verifyIssue: route by message heuristics first, then bypass
security/performance issues, then default to valid with medium confidence.
The boolean records whether a forge fetch was attempted during verification. -/
def verifyIssue (fetchFile : Except Unit String)
    (fetchDef : Except Unit String) (issue : Issue)
    (context : VerificationContext) : VerificationResult × Bool :=
  if isImportIssue issue.message then verifyImportIssue fetchFile issue context
  else if isDefinitionIssue issue.message then verifyDefinitionIssue fetchDef issue context
  else if issue.type = IssueType.security ∨ issue.type = IssueType.performance then
    ({ isValid := true, confidence := Confidence.high,
       reason := "Security/performance issues are not verified" }, false)
  else
    ({ isValid := true, confidence := Confidence.medium,
       reason := "Issue type does not require verification" }, false)

/-! ## Claims C4 and C5 -/

/-- Import-path behaviour under a failing full-file fetch: when the fetch is
reached, the catch degrades to valid with low confidence. -/
theorem verifyImportIssue_fetch_failure (issue : Issue) (context : VerificationContext) :
    (verifyImportIssue (.error ()) issue context).2 = true →
      (verifyImportIssue (.error ()) issue context).1.isValid = true ∧
        (verifyImportIssue (.error ()) issue context).1.confidence = Confidence.low := by
  unfold verifyImportIssue
  cases extractImportName issue.message with
  | none => intro h; exact absurd h (by simp)
  | some importName =>
    dsimp only
    split
    · intro h; exact absurd h (by simp)
    · split
      · intro h; exact absurd h (by simp)
      · intro _; exact ⟨rfl, rfl⟩

/-- Definition-path behaviour under a failing extended-context fetch: the
failure is swallowed inside getFileContentWithContext, the empty record
matches nothing, and the issue comes back valid with HIGH confidence. -/
theorem verifyDefinitionIssue_fetch_failure (issue : Issue) (context : VerificationContext) :
    (verifyDefinitionIssue (.error ()) issue context).2 = true →
      (verifyDefinitionIssue (.error ()) issue context).1.isValid = true ∧
        (verifyDefinitionIssue (.error ()) issue context).1.confidence = Confidence.high := by
  unfold verifyDefinitionIssue
  cases extractIdentifier issue.message with
  | none => intro h; exact absurd h (by simp)
  | some identifier =>
    dsimp only
    split
    · intro h; exact absurd h (by simp)
    · intro _; exact ⟨rfl, rfl⟩

/-- Definition-path issue for the C4 counterexample. -/
def c4DefIssue : Issue :=
  { line := 5, severity := Severity.high, type := IssueType.logic,
    message := "Variable \"count\" is not defined", suggestion := "" }

/-- Context for the C4 theorems: no file context, so both paths reach their
fetch step. -/
def c4Context : VerificationContext :=
  { filePath := "a.ts", fileContext := none }

/-- C4 counterexample: the claim says a failed extended-context fetch on the
definition path yields confidence low.  In the source the fetch failure is
caught inside getFileContentWithContext, which returns the zeroed record and
never throws; the verifier then runs its success path on the empty context
and returns isValid = true with confidence HIGH, so the verifier catch that
would produce low confidence is unreachable. -/
theorem definition_fetch_failure_not_low :
    (verifyIssue (.error ()) (.error ()) c4DefIssue c4Context).2 = true ∧
      (verifyIssue (.error ()) (.error ()) c4DefIssue c4Context).1.isValid = true ∧
      (verifyIssue (.error ()) (.error ()) c4DefIssue c4Context).1.confidence =
        Confidence.high := by
  refine ⟨?_, ?_, ?_⟩ <;> decide

/-- C4 (amended): a forge fetch failure during verification never drops the
issue: whenever verification with failing fetches performs a fetch, the
result has isValid = true.  On the import path the failed full-file fetch
degrades to confidence low; on the definition path the extended ±50-line
context fetch swallows the failure inside getFileContentWithContext and
returns an empty context, so the issue comes back with confidence high (the
verifier's own low-confidence catch there is unreachable). -/
theorem verifyIssue_fetch_failure (issue : Issue) (context : VerificationContext) :
    ((verifyIssue (.error ()) (.error ()) issue context).2 = true →
      (verifyIssue (.error ()) (.error ()) issue context).1.isValid = true) ∧
    (isImportIssue issue.message = true →
      (verifyIssue (.error ()) (.error ()) issue context).2 = true →
      (verifyIssue (.error ()) (.error ()) issue context).1.confidence = Confidence.low) ∧
    (isImportIssue issue.message = false → isDefinitionIssue issue.message = true →
      (verifyIssue (.error ()) (.error ()) issue context).2 = true →
      (verifyIssue (.error ()) (.error ()) issue context).1.confidence = Confidence.high) := by
  refine ⟨?_, ?_, ?_⟩
  · unfold verifyIssue
    split
    · intro h
      exact (verifyImportIssue_fetch_failure issue context h).1
    · split
      · intro h
        exact (verifyDefinitionIssue_fetch_failure issue context h).1
      · split
        · intro h; exact absurd h (by simp)
        · intro h; exact absurd h (by simp)
  · intro him
    unfold verifyIssue
    split
    · intro h
      exact (verifyImportIssue_fetch_failure issue context h).2
    · rename_i hcond
      exact absurd him hcond
  · intro him hdef
    unfold verifyIssue
    split
    · rename_i hcond
      rw [him] at hcond
      exact Bool.noConfusion hcond
    · intro h
      exact (verifyDefinitionIssue_fetch_failure issue context h).2

/-- Issue for the C4 witness: an import-related message that reaches the
full-file fetch because the context has no imports. -/
def c4Issue : Issue :=
  { line := 3, severity := Severity.high, type := IssueType.logic,
    message := "Missing import \"Foo\"", suggestion := "" }

/-- C4 witness: the amended theorem applied on the import path, where the
failed fetch degrades to valid with low confidence, plus the never-dropped
conjunct. -/
theorem verifyIssue_fetch_failure_witness :
    isImportIssue c4Issue.message = true ∧
      (verifyIssue (.error ()) (.error ()) c4Issue c4Context).2 = true ∧
      (verifyIssue (.error ()) (.error ()) c4Issue c4Context).1.isValid = true ∧
      (verifyIssue (.error ()) (.error ()) c4Issue c4Context).1.confidence =
        Confidence.low :=
  ⟨by decide, by decide,
    (verifyIssue_fetch_failure c4Issue c4Context).1 (by decide),
    (verifyIssue_fetch_failure c4Issue c4Context).2.1 (by decide) (by decide)⟩

/-- Issue and context for the C5 counterexample: a security issue whose
message mentions a missing import that is in fact present in the context. -/
def c5Issue : Issue :=
  { line := 3, severity := Severity.high, type := IssueType.security,
    message := "Missing import \"X\"", suggestion := "" }

/-- File context whose imports contain the name claimed missing by c5Issue. -/
def c5FileContext : FileContentWithContext :=
  { lines := [], startLineNumber := 1, targetLineNumber := 1, endLineNumber := 1,
    totalLines := 1, imports := ["import { X } from \"./x\""] }

/-- Context for the C5 counterexample. -/
def c5Context : VerificationContext :=
  { filePath := "a.ts", fileContext := some c5FileContext }

/-- C5 counterexample: the claim says every security issue bypasses
verification with isValid = true and confidence high for all messages.  The
message routing runs first, so a security issue whose message is related to
imports is verified like an import issue and can be rejected: here it
comes back isValid = false. -/
theorem security_bypass_counterexample :
    (verifyIssue (.error ()) (.error ()) c5Issue c5Context).1.isValid = false := by
  decide

/-- C5 (amended): a security or performance issue bypasses verification with
isValid = true and confidence high provided its message is neither related
to imports nor to definitions; message routing takes priority over
the type bypass. -/
theorem security_performance_bypass (fetchFile : Except Unit String)
    (fetchDef : Except Unit String) (issue : Issue)
    (context : VerificationContext)
    (h1 : isImportIssue issue.message = false)
    (h2 : isDefinitionIssue issue.message = false)
    (h3 : issue.type = IssueType.security ∨ issue.type = IssueType.performance) :
    verifyIssue fetchFile fetchDef issue context =
      ({ isValid := true, confidence := Confidence.high,
         reason := "Security/performance issues are not verified" }, false) := by
  unfold verifyIssue
  simp [h1, h2, h3]

/-- Issue for the C5 witness: a security issue with a non-import,
non-definition message. -/
def c5SqlIssue : Issue :=
  { line := 7, severity := Severity.critical, type := IssueType.security,
    message := "SQL injection risk", suggestion := "use parameters" }

/-- C5 witness: the amended bypass applied at a concrete security issue. -/
theorem security_performance_bypass_witness :
    isImportIssue c5SqlIssue.message = false ∧
      isDefinitionIssue c5SqlIssue.message = false ∧
      verifyIssue (.error ()) (.error ()) c5SqlIssue
          { filePath := "a.ts", fileContext := none } =
        ({ isValid := true, confidence := Confidence.high,
           reason := "Security/performance issues are not verified" }, false) :=
  ⟨by decide, by decide,
    security_performance_bypass (.error ()) (.error ()) c5SqlIssue
      { filePath := "a.ts", fileContext := none } (by decide) (by decide) (Or.inl rfl)⟩

/-! ## Review orchestrator (review-processor.ts, handleReview)

The post-LLM stage of handleReview is modelled per path.  The verifier is an
oracle (its decision is a function of the issue, and of the chunk whose
context it receives); the LLM results are inputs.  The run state mirrors the
orchestrator locals allIssues and totalScore and additionally keeps two
traces: the issues handed to the verifier and the issues for which an inline
comment was posted. -/

/-- Chunk as assembled by handleReview STEP 1: processor output with the
filename overridden to the forge path, the remembered old path, and the
optionally fetched file context. -/
structure OrchChunk where
  filename : String
  oldPath : String
  language : String
  hunkLines : List String
  additions : Nat
  deletions : Nat
  changedLines : List Nat
  fileContext : Option FileContentWithContext
deriving Repr, DecidableEq

/-- Severity impact map of the score adjustment. -/
def severityImpact : Severity → Int
  | Severity.critical => 15
  | Severity.high => 10
  | Severity.medium => 5
  | Severity.low => 2

/-- Severities for which an inline comment is posted. -/
def postsInline (s : Severity) : Bool :=
  s = Severity.critical || s = Severity.high || s = Severity.medium

/-- Orchestrator state: retained issues, running score, and the traces of
verifier invocations and inline posts. -/
structure RunState where
  allIssues : List IssueWithFile
  totalScore : Int
  verifierCalls : List IssueWithFile
  inlinePosts : List IssueWithFile
deriving Repr, DecidableEq

/-- Initial orchestrator state: no issues, score 100. -/
def initRunState : RunState :=
  { allIssues := [], totalScore := 100, verifierCalls := [], inlinePosts := [] }

/-- Batched-path loop body for one LLM issue: find the chunk by filename and
skip the issue entirely when none matches; otherwise verify, and when valid
retain the issue, post inline for critical/high/medium, and decrement the
score by the severity impact. -/
def batchedStep (chunks : List OrchChunk) (verify : IssueWithFile → Bool)
    (st : RunState) (issue : IssueWithFile) : RunState :=
  match chunks.find? (fun c => c.filename == issue.file) with
  | none => st
  | some _ =>
    let st1 := { st with verifierCalls := st.verifierCalls ++ [issue] }
    if verify issue then
      let st2 := { st1 with allIssues := st1.allIssues ++ [issue] }
      let st3 :=
        if postsInline issue.severity then
          { st2 with inlinePosts := st2.inlinePosts ++ [issue] }
        else st2
      { st3 with totalScore := st3.totalScore - severityImpact issue.severity }
    else st1

/-- The batched review path over all returned issues. -/
def runBatchedPath (chunks : List OrchChunk) (verify : IssueWithFile → Bool)
    (issues : List IssueWithFile) : RunState :=
  issues.foldl (batchedStep chunks verify) initRunState

/-- Attach the chunk's filename to a single-chunk issue. -/
def withFile (filename : String) (i : Issue) : IssueWithFile :=
  { file := filename, line := i.line, severity := i.severity, type := i.type,
    message := i.message, suggestion := i.suggestion }

/-- Individual-path loop body for one chunk: verify all returned issues, then
retain the verified ones with the chunk's filename, post inline for
critical/high/medium, and decrement the score by each verified issue's
impact. -/
def individualChunkStep (verify : OrchChunk → Issue → Bool) (st : RunState)
    (chunk : OrchChunk) (issues : List Issue) : RunState :=
  let verified := issues.filter (verify chunk)
  { allIssues := st.allIssues ++ verified.map (withFile chunk.filename),
    totalScore := st.totalScore - ((verified.map fun i => severityImpact i.severity).sum),
    verifierCalls := st.verifierCalls ++ issues.map (withFile chunk.filename),
    inlinePosts := st.inlinePosts ++
      ((verified.filter fun i => postsInline i.severity).map (withFile chunk.filename)) }

/-- The individual review path over all chunks. -/
def runIndividualPath (chunks : List OrchChunk) (llm : OrchChunk → List Issue)
    (verify : OrchChunk → Issue → Bool) : RunState :=
  chunks.foldl (fun st c => individualChunkStep verify st c (llm c)) initRunState

/-- Review status enum. -/
inductive ReviewStatus
  | pending
  | processing
  | completed
  | failed
  | skipped
deriving Repr, DecidableEq

/-- Fields of the final Review row update. -/
structure PersistedReview where
  status : ReviewStatus
  reviewContentIssues : List IssueWithFile
  qualityScore : Int
  issuesFound : Nat
  suggestionsCount : Nat
deriving Repr, DecidableEq

/-- Model of the final database update of handleReview: status COMPLETED,
the clamped score, and the retained issues with their count. -/
def finalizeReview (st : RunState) : PersistedReview :=
  { status := ReviewStatus.completed, reviewContentIssues := st.allIssues,
    qualityScore := max 0 st.totalScore, issuesFound := st.allIssues.length,
    suggestionsCount := st.allIssues.length }

/-- Data interpolated into the summary comment of formatSummaryComment; the
Markdown string assembly is omitted and the record keeps the rendered
quantities, notably the score exactly as interpolated. -/
structure SummaryView where
  scoreShown : Int
  filesReviewed : Nat
  totalIssuesShown : Nat
  criticalCount : Nat
  highCount : Nat
  mediumCount : Nat
  lowCount : Nat
  largeMRWarning : Bool
deriving Repr, DecidableEq

/-- Model of formatSummaryComment: the quantities rendered into the summary
Markdown, with the score rendered as passed (no clamping). -/
def formatSummaryComment (issues : List IssueWithFile) (score : Int)
    (skippedFiles filesProcessed : Nat) : SummaryView :=
  { scoreShown := score, filesReviewed := filesProcessed,
    totalIssuesShown := issues.length,
    criticalCount := (issues.filter fun i => i.severity = Severity.critical).length,
    highCount := (issues.filter fun i => i.severity = Severity.high).length,
    mediumCount := (issues.filter fun i => i.severity = Severity.medium).length,
    lowCount := (issues.filter fun i => i.severity = Severity.low).length,
    largeMRWarning := skippedFiles > 0 }

/-- The summary comment handleReview posts: formatSummaryComment applied to
allIssues and the unclamped totalScore. -/
def summaryPosted (st : RunState) (skippedFiles filesProcessed : Nat) : SummaryView :=
  formatSummaryComment st.allIssues st.totalScore skippedFiles filesProcessed

/-- One LLM call issued by STEP 3 of handleReview. -/
inductive LlmCall
  | batched (chunks : List OrchChunk)
  | single (chunk : OrchChunk)
deriving Repr, DecidableEq

/-- The reduce of STEP 2: total changed lines over all collected chunks. -/
def totalChangedLinesOf (chunks : List OrchChunk) : Nat :=
  chunks.foldl (fun sum c => sum + (c.additions + c.deletions)) 0

/-- Model of the STEP 2/3 batching decision: one batched call over all chunks
when the total is at most 500 and there is more than one chunk, otherwise one
single-chunk call per chunk. -/
def reviewCalls (chunks : List OrchChunk) : List LlmCall :=
  if totalChangedLinesOf chunks ≤ 500 ∧ chunks.length > 1 then [LlmCall.batched chunks]
  else chunks.map LlmCall.single

/-! ## Claim C2: batching decision -/

/-- The foldl of STEP 2 computes the sum of additions plus deletions. -/
theorem totalChangedLinesOf_eq_sum (chunks : List OrchChunk) :
    totalChangedLinesOf chunks = ((chunks.map fun c => c.additions + c.deletions).sum) := by
  have aux : ∀ (l : List OrchChunk) (n : Nat),
      l.foldl (fun sum c => sum + (c.additions + c.deletions)) n =
        n + ((l.map fun c => c.additions + c.deletions).sum) := by
    intro l
    induction l with
    | nil => intro n; simp
    | cons c rest ih =>
      intro n
      rw [List.foldl_cons, ih, List.map_cons, List.sum_cons]
      omega
  rw [totalChangedLinesOf, aux]
  omega

/-- C2: when the total changed lines over all collected chunks is at most 500
and there is more than one chunk, exactly one LLM call is issued, the batched
call over all chunks; otherwise exactly one single-chunk call is issued per
chunk. -/
theorem batch_decision (chunks : List OrchChunk) :
    (((chunks.map fun c => c.additions + c.deletions).sum ≤ 500 ∧ chunks.length > 1) →
      reviewCalls chunks = [LlmCall.batched chunks] ∧ (reviewCalls chunks).length = 1) ∧
    (¬((chunks.map fun c => c.additions + c.deletions).sum ≤ 500 ∧ chunks.length > 1) →
      reviewCalls chunks = chunks.map LlmCall.single ∧
        (reviewCalls chunks).length = chunks.length) := by
  have hc : totalChangedLinesOf chunks = ((chunks.map fun c => c.additions + c.deletions).sum) :=
    totalChangedLinesOf_eq_sum chunks
  constructor <;> intro h
  · rw [reviewCalls, if_pos (by rw [hc]; exact h)]
    exact ⟨rfl, rfl⟩
  · rw [reviewCalls, if_neg (by rw [hc]; exact h)]
    exact ⟨rfl, by simp⟩

/-- Chunk for the C2 witness. -/
def c2ChunkA : OrchChunk :=
  { filename := "utils.ts", oldPath := "utils.ts", language := "typescript",
    hunkLines := [], additions := 8, deletions := 2, changedLines := [1],
    fileContext := none }

/-- Second chunk for the C2 witness. -/
def c2ChunkB : OrchChunk :=
  { filename := "main.ts", oldPath := "main.ts", language := "typescript",
    hunkLines := [], additions := 3, deletions := 1, changedLines := [4],
    fileContext := none }

/-- C2 witness: two small chunks with 14 total changed lines produce exactly
one batched call. -/
theorem batch_decision_witness :
    (([c2ChunkA, c2ChunkB].map fun c => c.additions + c.deletions).sum ≤ 500 ∧
        ([c2ChunkA, c2ChunkB] : List OrchChunk).length > 1) ∧
      reviewCalls [c2ChunkA, c2ChunkB] = [LlmCall.batched [c2ChunkA, c2ChunkB]] ∧
      (reviewCalls [c2ChunkA, c2ChunkB]).length = 1 :=
  ⟨by decide, (batch_decision [c2ChunkA, c2ChunkB]).1 (by decide)⟩

/-! ## Run-path specifications -/

/-- Issues retained on the batched path: a chunk with the issue's file exists
and the verifier accepts the issue. -/
def retainedBatched (chunks : List OrchChunk) (verify : IssueWithFile → Bool)
    (issues : List IssueWithFile) : List IssueWithFile :=
  issues.filter fun issue =>
    (chunks.find? (fun c => c.filename == issue.file)).isSome && verify issue

/-- Issues retained on the individual path: per chunk, the verified issues
tagged with the chunk's filename, concatenated in chunk order. -/
def retainedIndividual (chunks : List OrchChunk) (llm : OrchChunk → List Issue)
    (verify : OrchChunk → Issue → Bool) : List IssueWithFile :=
  (chunks.map fun c => ((llm c).filter (verify c)).map (withFile c.filename)).flatten

/-- Effect of one batched-path step on the retained issues and the score. -/
theorem batchedStep_spec (chunks : List OrchChunk) (verify : IssueWithFile → Bool)
    (st : RunState) (issue : IssueWithFile) :
    (batchedStep chunks verify st issue).allIssues =
        st.allIssues ++
          (if (chunks.find? (fun c => c.filename == issue.file)).isSome && verify issue
           then [issue] else []) ∧
      (batchedStep chunks verify st issue).totalScore =
        st.totalScore -
          (if (chunks.find? (fun c => c.filename == issue.file)).isSome && verify issue
           then severityImpact issue.severity else 0) := by
  unfold batchedStep
  cases hf : chunks.find? (fun c => c.filename == issue.file) with
  | none => simp
  | some c =>
    dsimp only
    by_cases hv : verify issue
    · simp only [hv, if_true, Option.isSome_some, Bool.true_and, Bool.and_true]
      constructor
      · split <;> simp
      · split <;> simp
    · simp [hv]

/-- Batched fold specification: allIssues collects exactly the retained
issues and totalScore is 100 minus their summed impact (relative to any
starting state). -/
theorem runBatched_fold_spec (chunks : List OrchChunk) (verify : IssueWithFile → Bool) :
    ∀ (issues : List IssueWithFile) (st : RunState),
      ((issues.foldl (batchedStep chunks verify) st).allIssues =
        st.allIssues ++ retainedBatched chunks verify issues) ∧
      ((issues.foldl (batchedStep chunks verify) st).totalScore =
        st.totalScore -
          ((retainedBatched chunks verify issues).map fun i => severityImpact i.severity).sum) := by
  intro issues
  induction issues with
  | nil => intro st; simp [retainedBatched]
  | cons i rest ih =>
    intro st
    rw [List.foldl_cons]
    obtain ⟨ha, hs⟩ := ih (batchedStep chunks verify st i)
    obtain ⟨sa, ss⟩ := batchedStep_spec chunks verify st i
    unfold retainedBatched at ha hs ⊢
    rw [List.filter_cons]
    by_cases hc : ((chunks.find? (fun c => c.filename == i.file)).isSome && verify i) = true
    · rw [ha, sa, hs, ss, if_pos hc, if_pos hc, if_pos hc]
      constructor
      · simp
      · simp only [List.map_cons, List.sum_cons]
        omega
    · rw [ha, sa, hs, ss, if_neg hc, if_neg hc, if_neg hc]
      constructor
      · simp
      · omega

/-- Individual fold specification: allIssues collects exactly the per-chunk
verified issues and totalScore subtracts their summed impact. -/
theorem runIndividual_fold_spec (llm : OrchChunk → List Issue)
    (verify : OrchChunk → Issue → Bool) :
    ∀ (chunks : List OrchChunk) (st : RunState),
      ((chunks.foldl (fun st c => individualChunkStep verify st c (llm c)) st).allIssues =
        st.allIssues ++ retainedIndividual chunks llm verify) ∧
      ((chunks.foldl (fun st c => individualChunkStep verify st c (llm c)) st).totalScore =
        st.totalScore -
          ((retainedIndividual chunks llm verify).map fun i => severityImpact i.severity).sum) := by
  intro chunks
  induction chunks with
  | nil => intro st; simp [retainedIndividual]
  | cons c rest ih =>
    intro st
    rw [List.foldl_cons]
    obtain ⟨ha, hs⟩ := ih (individualChunkStep verify st c (llm c))
    rw [ha, hs]
    unfold individualChunkStep retainedIndividual
    dsimp only
    constructor
    · simp [retainedIndividual]
    · simp only [retainedIndividual, List.map_flatten, List.map_cons, List.flatten_cons,
        List.map_append, List.sum_append, List.map_map]
      have hm : ∀ (l : List Issue) (f : String),
          (l.map ((fun i : IssueWithFile => severityImpact i.severity) ∘ withFile f)) =
            l.map fun i => severityImpact i.severity := fun l f => rfl
      rw [hm]
      omega

/-! ## Claim C1: persisted review fields -/

/-- C1: when handleReview reaches the persistence stage, the persisted
Review has status COMPLETED, qualityScore = max(0, 100 − Σ impact(severity))
over the retained (verified) issues with impact critical 15, high 10,
medium 5, low 2, and issuesFound = suggestionsCount = the number of retained
issues, on both the batched and the individual review path. -/
theorem review_persistence_spec (chunks : List OrchChunk) (verifyB : IssueWithFile → Bool)
    (issues : List IssueWithFile) (llm : OrchChunk → List Issue)
    (verifyI : OrchChunk → Issue → Bool) :
    ((finalizeReview (runBatchedPath chunks verifyB issues)).status =
        ReviewStatus.completed ∧
      (finalizeReview (runBatchedPath chunks verifyB issues)).qualityScore =
        max 0 (100 -
          ((retainedBatched chunks verifyB issues).map fun i => severityImpact i.severity).sum) ∧
      (finalizeReview (runBatchedPath chunks verifyB issues)).issuesFound =
        (retainedBatched chunks verifyB issues).length ∧
      (finalizeReview (runBatchedPath chunks verifyB issues)).suggestionsCount =
        (retainedBatched chunks verifyB issues).length ∧
      (finalizeReview (runBatchedPath chunks verifyB issues)).reviewContentIssues =
        retainedBatched chunks verifyB issues) ∧
    ((finalizeReview (runIndividualPath chunks llm verifyI)).status =
        ReviewStatus.completed ∧
      (finalizeReview (runIndividualPath chunks llm verifyI)).qualityScore =
        max 0 (100 -
          ((retainedIndividual chunks llm verifyI).map fun i => severityImpact i.severity).sum) ∧
      (finalizeReview (runIndividualPath chunks llm verifyI)).issuesFound =
        (retainedIndividual chunks llm verifyI).length ∧
      (finalizeReview (runIndividualPath chunks llm verifyI)).suggestionsCount =
        (retainedIndividual chunks llm verifyI).length ∧
      (finalizeReview (runIndividualPath chunks llm verifyI)).reviewContentIssues =
        retainedIndividual chunks llm verifyI) := by
  obtain ⟨hba, hbs⟩ := runBatched_fold_spec chunks verifyB issues initRunState
  obtain ⟨hia, his⟩ := runIndividual_fold_spec llm verifyI chunks initRunState
  simp only [initRunState, List.nil_append] at hba hbs hia his
  unfold runBatchedPath runIndividualPath finalizeReview
  refine ⟨⟨rfl, ?_, ?_, ?_, ?_⟩, rfl, ?_, ?_, ?_, ?_⟩ <;>
    simp [initRunState, hba, hbs, hia, his]

/-! ## Claim C10: summary renders the unclamped score -/

/-- C10: the summary comment renders the quality score before clamping: when
the severity impacts of the retained issues sum to more than 100, the posted
summary shows a negative score while the persisted qualityScore is clamped
to 0, on either review path. -/
theorem summary_unclamped_score (chunks : List OrchChunk) (verifyB : IssueWithFile → Bool)
    (issues : List IssueWithFile) (llm : OrchChunk → List Issue)
    (verifyI : OrchChunk → Issue → Bool) (skippedFiles filesProcessed : Nat) :
    (100 < (((runBatchedPath chunks verifyB issues).allIssues.map
          fun i => severityImpact i.severity).sum) →
      (summaryPosted (runBatchedPath chunks verifyB issues) skippedFiles
          filesProcessed).scoreShown < 0 ∧
        (finalizeReview (runBatchedPath chunks verifyB issues)).qualityScore = 0) ∧
    (100 < (((runIndividualPath chunks llm verifyI).allIssues.map
          fun i => severityImpact i.severity).sum) →
      (summaryPosted (runIndividualPath chunks llm verifyI) skippedFiles
          filesProcessed).scoreShown < 0 ∧
        (finalizeReview (runIndividualPath chunks llm verifyI)).qualityScore = 0) := by
  obtain ⟨hba, hbs⟩ := runBatched_fold_spec chunks verifyB issues initRunState
  obtain ⟨hia, his⟩ := runIndividual_fold_spec llm verifyI chunks initRunState
  simp only [initRunState, List.nil_append] at hba hbs hia his
  constructor
  · intro h
    rw [runBatchedPath] at h
    simp only [initRunState] at h
    rw [hba] at h
    have hsc : (summaryPosted (runBatchedPath chunks verifyB issues) skippedFiles
        filesProcessed).scoreShown = (runBatchedPath chunks verifyB issues).totalScore := rfl
    have hq : (finalizeReview (runBatchedPath chunks verifyB issues)).qualityScore =
        max 0 (runBatchedPath chunks verifyB issues).totalScore := rfl
    rw [hsc, hq, runBatchedPath]
    simp only [initRunState]
    rw [hbs]
    omega
  · intro h
    rw [runIndividualPath] at h
    simp only [initRunState] at h
    rw [hia] at h
    have hsc : (summaryPosted (runIndividualPath chunks llm verifyI) skippedFiles
        filesProcessed).scoreShown = (runIndividualPath chunks llm verifyI).totalScore := rfl
    have hq : (finalizeReview (runIndividualPath chunks llm verifyI)).qualityScore =
        max 0 (runIndividualPath chunks llm verifyI).totalScore := rfl
    rw [hsc, hq, runIndividualPath]
    simp only [initRunState]
    rw [his]
    omega

/-- Chunk for the C10 witness. -/
def c10Chunk : OrchChunk :=
  { filename := "a.ts", oldPath := "a.ts", language := "typescript", hunkLines := [],
    additions := 7, deletions := 0, changedLines := [1], fileContext := none }

/-- Critical issue for the C10 witness. -/
def c10CritIssue : Issue :=
  { line := 1, severity := Severity.critical, type := IssueType.logic,
    message := "bug", suggestion := "fix" }

/-- LLM oracle for the C10 witness: seven critical issues for any chunk. -/
def c10Llm : OrchChunk → List Issue :=
  fun _ => List.replicate 7 c10CritIssue

/-- Verifier oracle for the C10 witness: accept everything. -/
def c10Verify : OrchChunk → Issue → Bool :=
  fun _ _ => true

/-- C10 witness: seven retained critical issues sum to impact 105, the
posted summary shows −5 and the persisted score is 0. -/
theorem summary_unclamped_score_witness :
    100 < (((runIndividualPath [c10Chunk] c10Llm c10Verify).allIssues.map
        fun i => severityImpact i.severity).sum) ∧
      (summaryPosted (runIndividualPath [c10Chunk] c10Llm c10Verify) 0 1).scoreShown < 0 ∧
      (finalizeReview (runIndividualPath [c10Chunk] c10Llm c10Verify)).qualityScore = 0 :=
  ⟨by decide,
    (summary_unclamped_score [c10Chunk] (fun _ => true) [] c10Llm c10Verify 0 1).2 (by decide)⟩

/-! ## Claim C9: batched issues without a matching chunk are skipped -/

/-- A batched-path step is the identity when no chunk matches the issue's
file. -/
theorem batchedStep_skip (chunks : List OrchChunk) (verify : IssueWithFile → Bool)
    (st : RunState) (issue : IssueWithFile)
    (h : chunks.find? (fun c => c.filename == issue.file) = none) :
    batchedStep chunks verify st issue = st := by
  unfold batchedStep
  rw [h]

/-- The batched fold is unchanged when the issues without a matching chunk
are removed from its input. -/
theorem runBatched_filter_eq (chunks : List OrchChunk) (verify : IssueWithFile → Bool) :
    ∀ (issues : List IssueWithFile) (st : RunState),
      issues.foldl (batchedStep chunks verify) st =
        (issues.filter fun j =>
          (chunks.find? (fun c => c.filename == j.file)).isSome).foldl
          (batchedStep chunks verify) st := by
  intro issues
  induction issues with
  | nil => intro st; rfl
  | cons i rest ih =>
    intro st
    rw [List.foldl_cons, List.filter_cons]
    by_cases hb : ((chunks.find? (fun c => c.filename == i.file)).isSome) = true
    · rw [if_pos hb, List.foldl_cons, ih]
    · have hf : chunks.find? (fun c => c.filename == i.file) = none :=
        Option.not_isSome_iff_eq_none.mp hb
      rw [if_neg hb, batchedStep_skip chunks verify st i hf, ih]

/-- Every issue a batched-path step adds to a trace has a matching chunk. -/
theorem batchedStep_trace_mem (chunks : List OrchChunk) (verify : IssueWithFile → Bool)
    (st : RunState) (issue : IssueWithFile) (j : IssueWithFile) :
    (j ∈ (batchedStep chunks verify st issue).verifierCalls →
      j ∈ st.verifierCalls ∨ (chunks.find? (fun c => c.filename == j.file)).isSome = true) ∧
    (j ∈ (batchedStep chunks verify st issue).inlinePosts →
      j ∈ st.inlinePosts ∨ (chunks.find? (fun c => c.filename == j.file)).isSome = true) ∧
    (j ∈ (batchedStep chunks verify st issue).allIssues →
      j ∈ st.allIssues ∨ (chunks.find? (fun c => c.filename == j.file)).isSome = true) := by
  unfold batchedStep
  cases hf : chunks.find? (fun c => c.filename == issue.file) with
  | none => exact ⟨fun h => Or.inl h, fun h => Or.inl h, fun h => Or.inl h⟩
  | some c =>
    have hmem : ∀ (l : List IssueWithFile), j ∈ l ++ [issue] →
        j ∈ l ∨ (chunks.find? (fun c => c.filename == j.file)).isSome = true := by
      intro l hj
      rcases List.mem_append.mp hj with hl | hone
      · exact Or.inl hl
      · rw [List.mem_singleton] at hone
        subst hone
        rw [hf]
        exact Or.inr rfl
    dsimp only
    by_cases hv : verify issue
    · simp only [hv, if_true]
      refine ⟨?_, ?_, ?_⟩
      · intro h
        split at h <;> exact hmem _ h
      · intro h
        split at h
        · exact hmem _ h
        · exact Or.inl h
      · intro h
        split at h <;> exact hmem _ h
    · simp only [hv, if_false, Bool.false_eq_true]
      exact ⟨fun h => hmem _ h, fun h => Or.inl h, fun h => Or.inl h⟩

/-- Every issue in a trace of the batched fold was in the starting state's
trace or has a matching chunk. -/
theorem runBatched_trace_mem (chunks : List OrchChunk) (verify : IssueWithFile → Bool) :
    ∀ (issues : List IssueWithFile) (st : RunState) (j : IssueWithFile),
      (j ∈ (issues.foldl (batchedStep chunks verify) st).verifierCalls →
        j ∈ st.verifierCalls ∨ (chunks.find? (fun c => c.filename == j.file)).isSome = true) ∧
      (j ∈ (issues.foldl (batchedStep chunks verify) st).inlinePosts →
        j ∈ st.inlinePosts ∨ (chunks.find? (fun c => c.filename == j.file)).isSome = true) ∧
      (j ∈ (issues.foldl (batchedStep chunks verify) st).allIssues →
        j ∈ st.allIssues ∨ (chunks.find? (fun c => c.filename == j.file)).isSome = true) := by
  intro issues
  induction issues with
  | nil => intro st j; exact ⟨fun h => Or.inl h, fun h => Or.inl h, fun h => Or.inl h⟩
  | cons i rest ih =>
    intro st j
    rw [List.foldl_cons]
    obtain ⟨ih1, ih2, ih3⟩ := ih (batchedStep chunks verify st i) j
    obtain ⟨s1, s2, s3⟩ := batchedStep_trace_mem chunks verify st i j
    refine ⟨?_, ?_, ?_⟩
    · intro h
      rcases ih1 h with hm | hs
      · exact s1 hm
      · exact Or.inr hs
    · intro h
      rcases ih2 h with hm | hs
      · exact s2 hm
      · exact Or.inr hs
    · intro h
      rcases ih3 h with hm | hs
      · exact s3 hm
      · exact Or.inr hs

/-- C9: on the batched path, every LLM issue whose file does not equal the
filename of any collected chunk is skipped entirely: running the path is the
same as running it with all such issues removed (so they are excluded from
the retained issues, the counts, the score and the posted summary), the
issue is never handed to the verifier, no inline comment is posted for it,
and it never appears among the retained issues. -/
theorem batched_unmatched_issue_skipped (chunks : List OrchChunk)
    (verify : IssueWithFile → Bool) (issues : List IssueWithFile) (is : IssueWithFile)
    (h : is.file ∉ chunks.map OrchChunk.filename) :
    runBatchedPath chunks verify issues =
        runBatchedPath chunks verify
          (issues.filter fun j => (chunks.find? (fun c => c.filename == j.file)).isSome) ∧
      is ∉ (runBatchedPath chunks verify issues).verifierCalls ∧
      is ∉ (runBatchedPath chunks verify issues).inlinePosts ∧
      is ∉ (runBatchedPath chunks verify issues).allIssues := by
  have hf : chunks.find? (fun c => c.filename == is.file) = none := by
    rw [List.find?_eq_none]
    intro c hc hbeq
    exact h (List.mem_map.mpr ⟨c, hc, by rwa [beq_iff_eq] at hbeq⟩)
  obtain ⟨t1, t2, t3⟩ := runBatched_trace_mem chunks verify issues initRunState is
  refine ⟨runBatched_filter_eq chunks verify issues initRunState, ?_, ?_, ?_⟩
  · intro hmem
    rcases t1 hmem with hin | hs
    · exact absurd hin (List.not_mem_nil is)
    · rw [hf] at hs
      exact Bool.noConfusion hs
  · intro hmem
    rcases t2 hmem with hin | hs
    · exact absurd hin (List.not_mem_nil is)
    · rw [hf] at hs
      exact Bool.noConfusion hs
  · intro hmem
    rcases t3 hmem with hin | hs
    · exact absurd hin (List.not_mem_nil is)
    · rw [hf] at hs
      exact Bool.noConfusion hs

/-- Chunk for the C9 witness. -/
def c9Chunk : OrchChunk :=
  { filename := "a.ts", oldPath := "a.ts", language := "typescript", hunkLines := [],
    additions := 1, deletions := 0, changedLines := [2], fileContext := none }

/-- Batched issue with an unmatched file for the C9 witness. -/
def c9StrayIssue : IssueWithFile :=
  { file := "b.ts", line := 2, severity := Severity.critical, type := IssueType.logic,
    message := "bug", suggestion := "fix" }

/-- C9 witness: against a single chunk for a different file, the stray issue
is skipped entirely. -/
theorem batched_unmatched_issue_skipped_witness :
    c9StrayIssue.file ∉ ([c9Chunk].map OrchChunk.filename) ∧
      (runBatchedPath [c9Chunk] (fun _ => true) [c9StrayIssue] =
          runBatchedPath [c9Chunk] (fun _ => true)
            (([c9StrayIssue] : List IssueWithFile).filter fun j =>
              (([c9Chunk] : List OrchChunk).find? (fun c => c.filename == j.file)).isSome) ∧
        c9StrayIssue ∉ (runBatchedPath [c9Chunk] (fun _ => true) [c9StrayIssue]).verifierCalls ∧
        c9StrayIssue ∉ (runBatchedPath [c9Chunk] (fun _ => true) [c9StrayIssue]).inlinePosts ∧
        c9StrayIssue ∉ (runBatchedPath [c9Chunk] (fun _ => true) [c9StrayIssue]).allIssues) :=
  ⟨by decide,
    batched_unmatched_issue_skipped [c9Chunk] (fun _ => true) [c9StrayIssue] c9StrayIssue
      (by decide)⟩
